import Mathlib

/-!
Verification of the declarative build-configuration resolver described by the
specification of the WebpackTSVueJS repository.  The source of the repository is
`examples/using-vue-components/webpack.config.js`, which declares two module
rules (a TypeScript rule with an exclude pattern and a Vue rule) and one
plugin; the file contains two variants of the configuration, the second of
which passes `options: { appendTsSuffixTo: [/\.vue$/] }` to ts-loader.  The
rule table below is translated from that file; the resolution procedure
itself is not part of the repository and is modelled from the specification
(section 4.1, "Configuration Resolver").
-/

namespace WebpackTSVueJS

/-- A file path, represented as the list of its characters. -/
abbrev Path := List Char

/-- The denotation of the JavaScript regex literals appearing in
`webpack.config.js`.  All three literals there have one of two shapes:
an end-anchored extension test such as `/\.tsx?$/` or `/\.vue$/`, which
matches exactly the paths ending in one of finitely many suffixes, and an
unanchored literal-character test such as `/node_modules/`, which matches
exactly the paths containing that character sequence. -/
inductive Pat where
  | endsWithAny (suffixes : List (List Char))
  | containsSeq (s : List Char)
deriving DecidableEq

/-- Whether a pattern matches a path; the counterpart of JavaScript
`regex.test(path)` for the two regex shapes of `Pat`. -/
def Pat.matches : Pat → Path → Bool
  | .endsWithAny ss, p => ss.any (fun s => s.isSuffixOf p)
  | .containsSeq s, p => p.tails.any (fun t => s.isPrefixOf t)

/-- The regex `/\.tsx?$/` of `rules[0].test`: the dot is escaped, the `x` is
optional and `$` anchors at the end, so it matches exactly the paths ending
in ".ts" or ".tsx" (case-sensitively). -/
def tsxRe : Pat := .endsWithAny [['.', 't', 's'], ['.', 't', 's', 'x']]

/-- The regex `/node_modules/` of `rules[0].exclude`: unanchored, it matches
exactly the paths containing the character sequence "node_modules". -/
def nodeModulesRe : Pat :=
  .containsSeq ['n', 'o', 'd', 'e', '_', 'm', 'o', 'd', 'u', 'l', 'e', 's']

/-- The regex `/\.vue$/` of `rules[1].test`: matches exactly the paths ending
in ".vue". -/
def vueRe : Pat := .endsWithAny [['.', 'v', 'u', 'e']]

/-- A value in the options mapping of a step.  The only option present in the
source is `appendTsSuffixTo: [/\.vue$/]`, a list of regexes. -/
inductive OptValue where
  | regexes (ps : List Pat)
deriving DecidableEq

/-- One processing step of a rule: a webpack `use` entry, i.e. a loader name
together with its options mapping.  The shorthand `use: ts-loader` of the
source denotes a single step with an empty options mapping. -/
structure Step where
  loader : String
  options : List (String × OptValue)
deriving DecidableEq

/-- One entry of `module.rules`: a `test` pattern, an optional `exclude`
pattern, and the ordered list of steps to use. -/
structure Rule where
  test : Pat
  exclude : Option Pat
  use : List Step
deriving DecidableEq

/-- The step denoted by `use: ts-loader` in the first configuration. -/
def tsStep : Step := { loader := "ts-loader", options := [] }

/-- The step denoted by `use: vue-loader` in `rules[1]`. -/
def vueStep : Step := { loader := "vue-loader", options := [] }

/-- The ts-loader step of the second configuration in `webpack.config.js`:
`loader: ts-loader, options: appendTsSuffixTo: [/\.vue$/]`. -/
def tsStepWithOptions : Step :=
  { loader := "ts-loader"
    options := [("appendTsSuffixTo", OptValue.regexes [vueRe])] }

/-- `rules[0]` of the first configuration:
`test: /\.tsx?$/, exclude: /node_modules/, use: ts-loader`. -/
def tsRule : Rule := { test := tsxRe, exclude := some nodeModulesRe, use := [tsStep] }

/-- `rules[1]` of both configurations: `test: /\.vue$/, use: vue-loader`. -/
def vueRule : Rule := { test := vueRe, exclude := none, use := [vueStep] }

/-- `module.rules` of the first configuration in `webpack.config.js`. -/
def basicRules : List Rule := [tsRule, vueRule]

/-- `rules[0]` of the second configuration: as `tsRule`, but with the
`appendTsSuffixTo` options on the ts-loader step. -/
def tsRuleWithOptions : Rule :=
  { test := tsxRe, exclude := some nodeModulesRe, use := [tsStepWithOptions] }

/-- `module.rules` of the second configuration in `webpack.config.js`. -/
def optionsRules : List Rule := [tsRuleWithOptions, vueRule]

/-- The `plugins` list of `webpack.config.js`: `[new VueLoaderPlugin()]`,
identified here by plugin name. -/
def configPlugins : List String := ["VueLoaderPlugin"]

/-- The error kind raised by the resolver (spec section 7): a path whose
extension no rule matches. -/
inductive ResolveError where
  | NoMatchingRule
deriving DecidableEq

/-- Modelled from the spec: a rule applies to a path when the path matches
the `test` pattern of the rule and, if an `exclude` pattern is declared, does not
match it ("if exclude pattern also matches, the Rule is skipped entirely for
that path").  The resolution procedure is not part of the repository; only
the rule table is. -/
def ruleApplies (r : Rule) (p : Path) : Bool :=
  r.test.matches p &&
    (match r.exclude with
     | some e => !e.matches p
     | none => true)

/-- Modelled from the spec: the matching non-excluded rules for a path, in
rule declaration order. -/
def matchingRules (rs : List Rule) (p : Path) : List Rule :=
  rs.filter (fun r => ruleApplies r p)

/-- Modelled from the spec: the concatenation, in rule declaration order, of
the step sequences of the matching non-excluded rules for a path. -/
def collectSteps (rs : List Rule) (p : Path) : List Step :=
  ((matchingRules rs p).map Rule.use).flatten

/-- Modelled from the spec (section 4.1): `resolve(filePath)` collects the
step sequences of every matching non-excluded rule, in rule declaration
order, and fails with `NoMatchingRule` when no rule matches. -/
def resolve (rs : List Rule) (p : Path) : Except ResolveError (List Step) :=
  if matchingRules rs p = [] then .error .NoMatchingRule
  else .ok (collectSteps rs p)

/-- Modelled from the spec (section 9, open question): the first-match-only
variant of the resolver, which applies only the first matching non-excluded
rule. -/
def resolveFirst (rs : List Rule) (p : Path) : Except ResolveError (List Step) :=
  match rs.find? (fun r => ruleApplies r p) with
  | some r => .ok r.use
  | none => .error .NoMatchingRule

/-- Modelled from the spec: a build resolves a sequence of file paths in
order against the rule table, threading the table through the sequence, and
returns the list of outcomes together with the table left behind. -/
def resolveAll : List Rule → List Path → List (Except ResolveError (List Step)) × List Rule
  | rs, [] => ([], rs)
  | rs, p :: ps =>
    let out := resolve rs p
    let rest := resolveAll rs ps
    (out :: rest.1, rest.2)

/-- An observable event of one build: a plugin hook running, or a file path
being resolved. -/
inductive BuildEvent where
  | hookRun (plugin : String)
  | fileResolved (p : Path)
deriving DecidableEq

/-- Modelled from the spec: plugins are registered once at configuration-load
time, in declaration order; the hook of each plugin runs exactly once per build,
before any file resolution begins.  `buildTrace` is the event trace of one
build that resolves the given paths. -/
def buildTrace (plugins : List String) (paths : List Path) : List BuildEvent :=
  plugins.map BuildEvent.hookRun ++ paths.map BuildEvent.fileResolved

/-- How many times the hook of the named plugin runs in a trace. -/
def hookCount (t : List BuildEvent) (s : String) : Nat :=
  t.countP (fun e => decide (e = BuildEvent.hookRun s))

/-- If a non-empty list is a suffix of a path, the last character of the path
is the last character of that list. -/
theorem getLast?_of_suffix {s p : List Char} {c : Char} (h : s <:+ p)
    (hc : s.getLast? = some c) : p.getLast? = some c := by
  obtain ⟨t, rfl⟩ := h
  rw [List.getLast?_append]
  simp [hc]

/-- A path matched by `/\.tsx?$/` ends in the character 's' or 'x'. -/
theorem tsx_last {p : Path} (h : tsxRe.matches p = true) :
    p.getLast? = some 's' ∨ p.getLast? = some 'x' := by
  simp only [tsxRe, Pat.matches, List.any_cons, List.any_nil, Bool.or_false,
    Bool.or_eq_true, List.isSuffixOf_iff_suffix] at h
  rcases h with h | h
  · exact Or.inl (getLast?_of_suffix h (by decide))
  · exact Or.inr (getLast?_of_suffix h (by decide))

/-- A path matched by `/\.vue$/` ends in the character 'e'. -/
theorem vue_last {p : Path} (h : vueRe.matches p = true) :
    p.getLast? = some 'e' := by
  simp only [vueRe, Pat.matches, List.any_cons, List.any_nil, Bool.or_false,
    List.isSuffixOf_iff_suffix] at h
  exact getLast?_of_suffix h (by decide)

/-- The two `test` patterns of the rule table match no path in common: a path
cannot end both in ".ts"/".tsx" and in ".vue". -/
theorem tsx_vue_disjoint (p : Path) : (tsxRe.matches p && vueRe.matches p) = false := by
  cases h1 : tsxRe.matches p with
  | false => simp
  | true =>
    cases h2 : vueRe.matches p with
    | false => simp
    | true =>
      exfalso
      have hv := vue_last h2
      rcases tsx_last h1 with h | h <;> rw [h] at hv <;> exact absurd hv (by decide)

/-- The matching rules of the two-rule table, by cases on which rules apply. -/
theorem matchingRules_basic (p : Path) :
    matchingRules basicRules p =
      (if ruleApplies tsRule p then [tsRule] else []) ++
      (if ruleApplies vueRule p then [vueRule] else []) := by
  cases h1 : ruleApplies tsRule p <;> cases h2 : ruleApplies vueRule p <;>
    simp [matchingRules, basicRules, List.filter_cons, h1, h2]

/-- Claim C1: resolution is a deterministic pure function of the rule set and
the input path: resolving a path twice in one build returns the same ordered
step sequence both times, and leaves the rule table unchanged. -/
theorem resolve_deterministic_pure (rs : List Rule) (p : Path) :
    resolveAll rs [p, p] = ([resolve rs p, resolve rs p], rs) := rfl

/-- Claim C5: against the two-rule table, "App.vue" matches only the `.vue`
rule, so resolution yields exactly the step sequence of that rule, `[vue-loader]`. -/
theorem resolve_app_vue :
    resolve basicRules ("App.vue".toList) = .ok [vueStep] := rfl

/-- Claim C2: a rule whose `match` and `exclude` patterns both match a path
contributes no steps to resolution: it does not apply and is dropped from the
matching rules of any table.  In particular a path matching both `/\.tsx?$/`
and `/node_modules/` gets no ts-loader step from the table of the config. -/
theorem excluded_rule_contributes_no_steps :
    (∀ (rs : List Rule) (r : Rule) (e : Pat) (p : Path),
        r.exclude = some e → r.test.matches p = true → e.matches p = true →
        ruleApplies r p = false ∧ r ∉ matchingRules rs p) ∧
    (∀ p : Path, tsxRe.matches p = true → nodeModulesRe.matches p = true →
        tsRule ∉ matchingRules basicRules p ∧
        ∀ s ∈ collectSteps basicRules p, s.loader ≠ "ts-loader") := by
  constructor
  · intro rs r e p hex hm hexm
    have happ : ruleApplies r p = false := by
      simp [ruleApplies, hex, hexm]
    refine ⟨happ, ?_⟩
    intro hmem
    rw [matchingRules, List.mem_filter] at hmem
    rw [happ] at hmem
    exact absurd hmem.2 (by simp)
  · intro p htsx hnm
    have hts : ruleApplies tsRule p = false := by
      simp [ruleApplies, tsRule, hnm]
    constructor
    · intro hmem
      rw [matchingRules, List.mem_filter] at hmem
      rw [hts] at hmem
      exact absurd hmem.2 (by simp)
    · intro s hs
      rw [collectSteps, matchingRules_basic p, hts] at hs
      cases h2 : ruleApplies vueRule p <;> rw [h2] at hs <;>
        simp [vueRule, vueStep] at hs
      rw [hs]
      decide

/-- Witness for C2 at the concrete path "node_modules/a.ts". -/
theorem excluded_rule_contributes_no_steps_witness :
    ruleApplies tsRule ("node_modules/a.ts".toList) = false ∧
    tsRule ∉ matchingRules basicRules ("node_modules/a.ts".toList) :=
  excluded_rule_contributes_no_steps.1 basicRules tsRule nodeModulesRe
    ("node_modules/a.ts".toList) rfl (by decide) (by decide)

/-- Claim C3: when several non-excluded rules match a path, resolution
returns the concatenation of the step sequences of all matching rules in rule
declaration order — all-matching-rules semantics, not first-match-only. -/
theorem all_matching_rules_compose
    (a b c : List Rule) (r1 r2 : Rule) (p : Path)
    (h1 : ruleApplies r1 p = true) (h2 : ruleApplies r2 p = true) :
    resolve (a ++ r1 :: b ++ r2 :: c) p =
      .ok (collectSteps a p ++ r1.use ++ collectSteps b p ++ r2.use ++
        collectSteps c p) := by
  have hm : matchingRules (a ++ r1 :: b ++ r2 :: c) p =
      matchingRules a p ++ r1 :: (matchingRules b p ++ r2 :: matchingRules c p) := by
    simp [matchingRules, List.filter_append, List.filter_cons, h1, h2]
  simp only [resolve, collectSteps, hm]
  rw [if_neg (by simp)]
  simp [List.map_append, List.flatten_append, List.append_assoc]

/-- A demonstration rule matching any path containing the character 'm',
used to exhibit composition of several matching rules on one path. -/
def mRule : Rule := { test := .containsSeq ['m'], exclude := none, use := [vueStep] }

/-- Witness for C3: a table whose two rules both match "main.ts" composes
their step sequences in declaration order. -/
theorem all_matching_rules_compose_witness :
    resolve ([] ++ tsRule :: [] ++ mRule :: []) ("main.ts".toList) =
      .ok (collectSteps [] ("main.ts".toList) ++ tsRule.use ++
        collectSteps [] ("main.ts".toList) ++ mRule.use ++
        collectSteps [] ("main.ts".toList)) :=
  all_matching_rules_compose [] [] [] tsRule mRule ("main.ts".toList)
    (by decide) (by decide)

/-- Claim C4: for a non-empty path, resolution fails exactly when no
non-excluded rule matches, `NoMatchingRule` is the only error resolution
itself raises, and it succeeds iff some non-excluded rule matches; in
particular "main.unknown" fails with `NoMatchingRule` against the rule table
of the config. -/
theorem resolve_fails_iff_no_rule :
    (∀ (rs : List Rule) (p : Path), p ≠ [] →
        (resolve rs p = .error .NoMatchingRule ↔ matchingRules rs p = []) ∧
        (∀ err : ResolveError, resolve rs p = .error err →
          err = .NoMatchingRule) ∧
        ((∃ l, resolve rs p = .ok l) ↔
          ∃ r, r ∈ rs ∧ ruleApplies r p = true)) ∧
    resolve basicRules ("main.unknown".toList) = .error .NoMatchingRule := by
  constructor
  · intro rs p _
    by_cases h : matchingRules rs p = []
    · have hres : resolve rs p = .error .NoMatchingRule := by simp [resolve, h]
      refine ⟨by simp [hres, h], fun err _ => by cases err; rfl, ?_⟩
      constructor
      · rintro ⟨l, hl⟩
        rw [hres] at hl
        exact absurd hl (by simp)
      · rintro ⟨r, hr, happ⟩
        exfalso
        have hmem : r ∈ matchingRules rs p := by
          rw [matchingRules]
          exact List.mem_filter.mpr ⟨hr, happ⟩
        rw [h] at hmem
        exact absurd hmem (by simp)
    · have hres : resolve rs p = .ok (collectSteps rs p) := by simp [resolve, h]
      refine ⟨by simp [hres, h], ?_, ?_⟩
      · intro err herr
        rw [hres] at herr
      · constructor
        · intro _
          obtain ⟨r, hr⟩ := List.exists_mem_of_ne_nil (matchingRules rs p) h
          rw [matchingRules, List.mem_filter] at hr
          exact ⟨r, hr.1, hr.2⟩
        · intro _
          exact ⟨collectSteps rs p, hres⟩
  · rfl

/-- Witness for C4 at the concrete path "main.unknown". -/
theorem resolve_fails_iff_no_rule_witness :
    resolve basicRules ("main.unknown".toList) = .error .NoMatchingRule ↔
      matchingRules basicRules ("main.unknown".toList) = [] :=
  (resolve_fails_iff_no_rule.1 basicRules ("main.unknown".toList)
    (by decide)).1

/-- No plugin hook runs among the file-resolution events of a trace. -/
theorem hookCount_fileResolved (s : String) (paths : List Path) :
    hookCount (paths.map BuildEvent.fileResolved) s = 0 := by
  induction paths with
  | nil => rfl
  | cons p ps ih =>
    simp only [List.map_cons, hookCount, List.countP_cons] at ih ⊢
    simp [ih]

/-- Claim C6: plugin hooks registered in order [A, B] run in that order,
each exactly once per build, before any file resolution event, however many
paths are resolved afterward. -/
theorem plugin_hooks_in_order_once (A B : String) (paths : List Path)
    (hAB : A ≠ B) :
    buildTrace [A, B] paths =
      BuildEvent.hookRun A :: BuildEvent.hookRun B ::
        paths.map BuildEvent.fileResolved ∧
    hookCount (buildTrace [A, B] paths) A = 1 ∧
    hookCount (buildTrace [A, B] paths) B = 1 := by
  have h0A := hookCount_fileResolved A paths
  have h0B := hookCount_fileResolved B paths
  simp only [hookCount] at h0A h0B
  refine ⟨rfl, ?_, ?_⟩ <;>
    simp [buildTrace, hookCount, List.countP_cons, h0A, h0B, hAB, Ne.symm hAB]

/-- Witness for C6 with the plugin of the config and a second plugin name. -/
theorem plugin_hooks_in_order_once_witness :
    buildTrace ["VueLoaderPlugin", "OtherPlugin"] [['a']] =
      BuildEvent.hookRun "VueLoaderPlugin" :: BuildEvent.hookRun "OtherPlugin" ::
        [['a']].map BuildEvent.fileResolved ∧
    hookCount (buildTrace ["VueLoaderPlugin", "OtherPlugin"] [['a']])
      "VueLoaderPlugin" = 1 ∧
    hookCount (buildTrace ["VueLoaderPlugin", "OtherPlugin"] [['a']])
      "OtherPlugin" = 1 :=
  plugin_hooks_in_order_once "VueLoaderPlugin" "OtherPlugin" [['a']] (by decide)

/-- Claim C7: every step of a resolution result is declared verbatim, with
its options mapping unchanged, in some matching rule of the table; the
resolver only sequences steps and passes options through.  Concretely, the
ts-loader step resolved for "src/main.ts" under the second configuration
carries `appendTsSuffixTo: [/\.vue$/]` verbatim. -/
theorem steps_options_passed_through :
    (∀ (rs : List Rule) (p : Path) (l : List Step) (s : Step),
        resolve rs p = .ok l → s ∈ l →
        ∃ r, r ∈ rs ∧ ruleApplies r p = true ∧ s ∈ r.use) ∧
    resolve optionsRules ("src/main.ts".toList) = .ok [tsStepWithOptions] ∧
    tsStepWithOptions.options =
      [("appendTsSuffixTo", OptValue.regexes [vueRe])] := by
  refine ⟨?_, rfl, rfl⟩
  intro rs p l s hres hs
  by_cases h : matchingRules rs p = []
  · have herr : resolve rs p = .error .NoMatchingRule := by simp [resolve, h]
    rw [herr] at hres
    exact absurd hres (by simp)
  · have hok : resolve rs p = .ok (collectSteps rs p) := by simp [resolve, h]
    rw [hok] at hres
    have hl : collectSteps rs p = l := by simpa using hres
    rw [← hl, collectSteps, List.mem_flatten] at hs
    obtain ⟨u, hu, hsu⟩ := hs
    rw [List.mem_map] at hu
    obtain ⟨r, hrm, rfl⟩ := hu
    rw [matchingRules, List.mem_filter] at hrm
    exact ⟨r, hrm.1, by simpa using hrm.2, hsu⟩

/-- Witness for C7: the ts-loader step with its options is found among the
declared rules for "src/main.ts". -/
theorem steps_options_passed_through_witness :
    ∃ r, r ∈ optionsRules ∧ ruleApplies r ("src/main.ts".toList) = true ∧
      tsStepWithOptions ∈ r.use :=
  steps_options_passed_through.1 optionsRules ("src/main.ts".toList)
    [tsStepWithOptions] tsStepWithOptions rfl (by simp)

/-- Resolution of the rule table of the config for a path the TypeScript rule applies
to: the result is exactly the ts-loader step sequence. -/
theorem resolve_basic_of_tsx (p : Path) (htsx : tsxRe.matches p = true)
    (hnm : nodeModulesRe.matches p = false)
    (hvue : vueRe.matches p = false) :
    resolve basicRules p = .ok [tsStep] := by
  simp [resolve, collectSteps, matchingRules, basicRules, ruleApplies,
    tsRule, vueRule, List.filter_cons, htsx, hnm, hvue]

/-- Claim C8: the two `test` patterns of the rule table of the config are
disjoint, so the first-match-only resolver and the all-matching-rules
resolver agree on every path of this rule set. -/
theorem firstMatch_eq_allMatch :
    (∀ p : Path, (tsxRe.matches p && vueRe.matches p) = false) ∧
    (∀ p : Path, resolveFirst basicRules p = resolve basicRules p) := by
  refine ⟨tsx_vue_disjoint, ?_⟩
  intro p
  cases htsx : tsxRe.matches p with
  | true =>
    have hvue : vueRe.matches p = false := by
      have hd := tsx_vue_disjoint p
      rw [htsx] at hd
      simpa using hd
    cases hnm : nodeModulesRe.matches p <;>
      simp [resolveFirst, resolve, collectSteps, matchingRules, basicRules,
        ruleApplies, tsRule, vueRule, List.filter_cons, htsx, hnm, hvue]
  | false =>
    cases hvue : vueRe.matches p <;>
      simp [resolveFirst, resolve, collectSteps, matchingRules, basicRules,
        ruleApplies, tsRule, vueRule, List.filter_cons, htsx, hvue]

/-- Claim C9: the exclude pattern is per-rule, not global: a ".vue" path
containing "node_modules" still resolves to the vue-loader step, because
only the TypeScript rule declares `exclude: /node_modules/`. -/
theorem exclude_applies_per_rule (p : Path)
    (hvue : vueRe.matches p = true)
    (_hnm : nodeModulesRe.matches p = true) :
    resolve basicRules p = .ok [vueStep] := by
  have htsx : tsxRe.matches p = false := by
    have hd := tsx_vue_disjoint p
    rw [hvue] at hd
    simpa using hd
  simp [resolve, collectSteps, matchingRules, basicRules, ruleApplies,
    tsRule, vueRule, List.filter_cons, htsx, hvue]

/-- Witness for C9 at the concrete path "node_modules/App.vue". -/
theorem exclude_applies_per_rule_witness :
    resolve basicRules ("node_modules/App.vue".toList) = .ok [vueStep] :=
  exclude_applies_per_rule ("node_modules/App.vue".toList)
    (by decide) (by decide)

/-- Claim C10: `/\.tsx?$/` makes the trailing 'x' optional: a ".tsx" path
outside node_modules resolves to the ts-loader step sequence, the same as a
".ts" path; and the pattern is case-sensitive, so ".TS" and ".Tsx" paths do
not match and "main.TS" resolves to no rule. -/
theorem tsx_optional_x_case_sensitive :
    (∀ p : Path, ['.', 't', 's', 'x'].isSuffixOf p = true →
        nodeModulesRe.matches p = false →
        resolve basicRules p = .ok [tsStep]) ∧
    (∀ p : Path, ['.', 't', 's'].isSuffixOf p = true →
        nodeModulesRe.matches p = false →
        resolve basicRules p = .ok [tsStep]) ∧
    tsxRe.matches ("main.TS".toList) = false ∧
    tsxRe.matches ("main.Tsx".toList) = false ∧
    resolve basicRules ("main.TS".toList) = .error .NoMatchingRule := by
  refine ⟨?_, ?_, by decide, by decide, rfl⟩
  · intro p hsuf hnm
    rw [List.isSuffixOf_iff_suffix] at hsuf
    have htsx : tsxRe.matches p = true := by
      simp only [tsxRe, Pat.matches, List.any_cons, List.any_nil,
        Bool.or_false, Bool.or_eq_true, List.isSuffixOf_iff_suffix]
      exact Or.inr hsuf
    have hvue : vueRe.matches p = false := by
      have hd := tsx_vue_disjoint p
      rw [htsx] at hd
      simpa using hd
    exact resolve_basic_of_tsx p htsx hnm hvue
  · intro p hsuf hnm
    rw [List.isSuffixOf_iff_suffix] at hsuf
    have htsx : tsxRe.matches p = true := by
      simp only [tsxRe, Pat.matches, List.any_cons, List.any_nil,
        Bool.or_false, Bool.or_eq_true, List.isSuffixOf_iff_suffix]
      exact Or.inl hsuf
    have hvue : vueRe.matches p = false := by
      have hd := tsx_vue_disjoint p
      rw [htsx] at hd
      simpa using hd
    exact resolve_basic_of_tsx p htsx hnm hvue

/-- Witness for C10 at the concrete path "App.tsx". -/
theorem tsx_optional_x_case_sensitive_witness :
    resolve basicRules ("App.tsx".toList) = .ok [tsStep] :=
  tsx_optional_x_case_sensitive.1 ("App.tsx".toList) (by decide) (by decide)

end WebpackTSVueJS
